import Mathlib

/-!
Verification development for the mochi BitTorrent tracker.

The definitions below are a shallow embedding of the Go sources:
  * the redis peer storage (`storage/redis`): keys, `putPeer`, `delPeer`,
    `PutSeeder`/`PutLeecher`/`DeleteSeeder`/`DeleteLeecher`,
    `GraduateLeecher`, `Connection.GetPeers`;
  * the middleware pipeline (`middleware`): `Logic.AfterAnnounce`,
    `Logic.AfterScrape`, `swarmInteractionHook.HandleAnnounce`,
    `responseHook.appendPeers`;
  * the UDP frontend (`frontend/udp`): `Config.Validate`'s clock-skew
    normalisation, `udpFE.handleRequest`, `writeErrorResponse`,
    `writeAnnounceResponse`.

Machine integers are modelled as `Nat`/`Int` with explicit wrap-around where
overflow matters.  Byte strings are `List ℕ` (each entry a byte value).
-/

namespace Mochi

/-- An infohash, as a byte string: 20 bytes for a v1 hash, 32 bytes for a
v2 hash (`bittorrent.InfoHash` is a Go string of those lengths). -/
abbrev InfoHash := List ℕ

/-- Model of `bittorrent.InfoHashV2Len` (32 bytes). -/
def infoHashV2Len : ℕ := 32

/-- Model of `InfoHash.TruncateV1`: the canonical 20-byte v1 truncation of a hash. -/
def truncateV1 (ih : InfoHash) : InfoHash := ih.take 20

/-- A peer: 20-byte peer id, raw address bytes and port.
`netip.Addr` is modelled by its byte slice: a 4-byte address is IPv4, a
16-byte address is IPv6, anything else is an invalid address (the zero
`netip.Addr` answers false to both `Is4` and `Is6`). -/
structure Peer where
  id : List ℕ
  addr : List ℕ
  port : ℕ
deriving DecidableEq, Repr

/-- Model of `peer.Addr().Is6()`. -/
def Peer.is6 (p : Peer) : Bool := p.addr.length = 16

/-- Model of `peer.Addr().Is4()`. -/
def Peer.is4 (p : Peer) : Bool := p.addr.length = 4

/-- Errors returned by the peer store: `storage.ErrResourceDoesNotExist`
(NotFound) and any other backend failure (collapsed into `unavailable`). -/
inductive StoreErr where
  | notFound
  | unavailable
deriving DecidableEq, Repr

/-! ## The redis peer store (`storage/redis`, part_005)

A redis hash key `CHI_{S,L}{4,6}_<infohash>` is modelled by the triple
(seeder?, v6?, infohash).  The four string prefixes of `InfoHashKey`
correspond to the two booleans. -/

/-- A redis infohash key: role (seeder or leecher), address family, hash.
Stands for the strings `CHI_S4_…`, `CHI_S6_…`, `CHI_L4_…`, `CHI_L6_…`. -/
structure RKey where
  seeder : Bool
  v6 : Bool
  ih : InfoHash
deriving DecidableEq, Repr

/-- Model of `InfoHashKey(infoHash, seeder, v6)`: mirrors the bitmask switch of the
source (`bm = seeder | v6<<1`), which selects one of the four prefixes. -/
def infoHashKey (ih : InfoHash) (seeder v6 : Bool) : RKey :=
  let bm : ℕ := (if seeder then 1 else 0) + (if v6 then 2 else 0)
  if bm = 3 then ⟨true, true, ih⟩
  else if bm = 2 then ⟨false, true, ih⟩
  else if bm = 1 then ⟨true, false, ih⟩
  else ⟨false, false, ih⟩

/-- The mutable redis state used by the peer-store operations.

* `seeders`/`leechers`: the union of the per-family hashes
  `CHI_S4_…`/`CHI_S6_…` (resp. `CHI_L4_…`/`CHI_L6_…`) as a set of
  (infohash, peer) entries.  Merging the two family hashes is faithful
  because every operation on peer `p` targets the hash selected by
  `p.Addr().Is6()`, so membership is a function of the pair.  The hash
  field values (last-announce timestamps) are not modelled: no claim
  mentions them.
* `countSeeders`/`countLeechers`: the global counters `CHI_C_S`/`CHI_C_L`.
* `downloads`: the `CHI_D` hash, infohash ↦ snatch count.
* `ihRegistry`: the `CHI_I` set of registered infohash keys. -/
structure StoreState where
  seeders : Finset (InfoHash × Peer)
  leechers : Finset (InfoHash × Peer)
  countSeeders : ℤ
  countLeechers : ℤ
  downloads : InfoHash → ℤ
  ihRegistry : Finset RKey

/-- The empty redis database. -/
def initialState : StoreState :=
  { seeders := ∅, leechers := ∅, countSeeders := 0, countLeechers := 0,
    downloads := fun _ => 0, ihRegistry := ∅ }

/-- Model of `store.putPeer(infoHashKey, peerCountKey, peerID)`: inside one
transaction, `HSET` the peer into the chosen hash (an overwrite if the
field exists), unconditionally `INCR` the chosen counter, and `SADD` the
hash key to `CHI_I`.  `seeder` selects which hash/counter pair the two key
arguments name. -/
def putPeer (s : StoreState) (seeder : Bool) (ih : InfoHash) (p : Peer) : StoreState :=
  if seeder then
    { s with seeders := insert (ih, p) s.seeders,
             countSeeders := s.countSeeders + 1,
             ihRegistry := insert (infoHashKey ih true p.is6) s.ihRegistry }
  else
    { s with leechers := insert (ih, p) s.leechers,
             countLeechers := s.countLeechers + 1,
             ihRegistry := insert (infoHashKey ih false p.is6) s.ihRegistry }

/-- Model of `store.delPeer(infoHashKey, peerCountKey, peerID)`: `HDEL` the peer; if
nothing was deleted return `storage.ErrResourceDoesNotExist`, otherwise
`DECR` the chosen counter. -/
def delPeer (s : StoreState) (seeder : Bool) (ih : InfoHash) (p : Peer) :
    StoreState × Option StoreErr :=
  if seeder then
    if (ih, p) ∈ s.seeders then
      ({ s with seeders := s.seeders.erase (ih, p),
                countSeeders := s.countSeeders - 1 }, none)
    else (s, some .notFound)
  else
    if (ih, p) ∈ s.leechers then
      ({ s with leechers := s.leechers.erase (ih, p),
                countLeechers := s.countLeechers - 1 }, none)
    else (s, some .notFound)

/-- Model of `store.PutSeeder(ih, peer)` = `putPeer` on the seeder key of the peer's
family. -/
def putSeeder (s : StoreState) (ih : InfoHash) (p : Peer) : StoreState :=
  putPeer s true ih p

/-- Model of `store.PutLeecher(ih, peer)`. -/
def putLeecher (s : StoreState) (ih : InfoHash) (p : Peer) : StoreState :=
  putPeer s false ih p

/-- Model of `store.DeleteSeeder(ih, peer)`. -/
def deleteSeeder (s : StoreState) (ih : InfoHash) (p : Peer) :
    StoreState × Option StoreErr :=
  delPeer s true ih p

/-- Model of `store.DeleteLeecher(ih, peer)`. -/
def deleteLeecher (s : StoreState) (ih : InfoHash) (p : Peer) :
    StoreState × Option StoreErr :=
  delPeer s false ih p

/-- Model of `store.GraduateLeecher(ih, peer)`: one `TxPipelined`
transaction queueing `HDEL` on the leecher hash, `HSET` into the seeder
hash, `INCR` of the seeder counter, `SADD` of the seeder key to `CHI_I`,
and `HINCRBY` of the `CHI_D` downloads field by 1.  Reading `deleted`
from the queued `HDel` inside the transaction callback yields `(0, nil)`
— command results only exist after EXEC — so the `deleted > 0` guard is
never true and the `Decr` of the leecher counter is never queued: at
EXEC the peer's leecher entry is removed but `CHI_C_L` is left
unchanged, while the remaining queued commands all execute,
whether or not the peer was a leecher. -/
def graduateLeecher (s : StoreState) (ih : InfoHash) (p : Peer) : StoreState :=
  { s with leechers := s.leechers.erase (ih, p),
           seeders := insert (ih, p) s.seeders,
           countSeeders := s.countSeeders + 1,
           ihRegistry := insert (infoHashKey ih true p.is6) s.ihRegistry,
           downloads := fun x => if x = ih then s.downloads ih + 1 else s.downloads x }

/-- One peer-store mutation, for reasoning about operation sequences. -/
inductive Op where
  | putSeeder (ih : InfoHash) (p : Peer)
  | putLeecher (ih : InfoHash) (p : Peer)
  | deleteSeeder (ih : InfoHash) (p : Peer)
  | deleteLeecher (ih : InfoHash) (p : Peer)
  | graduate (ih : InfoHash) (p : Peer)
deriving DecidableEq, Repr

/-- Apply one operation to the store (delete errors are discarded, as the
state change is what the invariant claims are about). -/
def applyOp (s : StoreState) : Op → StoreState
  | .putSeeder ih p => putSeeder s ih p
  | .putLeecher ih p => putLeecher s ih p
  | .deleteSeeder ih p => (deleteSeeder s ih p).1
  | .deleteLeecher ih p => (deleteLeecher s ih p).1
  | .graduate ih p => graduateLeecher s ih p

/-- Apply a sequence of operations in order. -/
def applyOps (s : StoreState) (ops : List Op) : StoreState :=
  ops.foldl applyOp s

/-- Both global counters agree with the total number of entries over all
swarm hashes of their kind. -/
def countersAgree (s : StoreState) : Prop :=
  s.countSeeders = s.seeders.card ∧ s.countLeechers = s.leechers.card

instance (s : StoreState) : Decidable (countersAgree s) := by
  unfold countersAgree; infer_instance

/-- An operation keeps the global counters in step with the sets on `s`
when it does not put or graduate a peer already present in the
destination seeder/leecher set (an `HSET` of an existing field does not
grow the hash, while the counter `INCR` is unconditional), and does not
graduate a current leecher (the `HDEL` removes the entry, but the
guarded leecher-counter `Decr` never executes). -/
def opCountersSafe (s : StoreState) : Op → Bool
  | .putSeeder ih p => !decide ((ih, p) ∈ s.seeders)
  | .putLeecher ih p => !decide ((ih, p) ∈ s.leechers)
  | .graduate ih p =>
      !decide ((ih, p) ∈ s.seeders) && !decide ((ih, p) ∈ s.leechers)
  | _ => true

/-- A sequence of operations is counter-safe from `s` when every
operation is counter-safe in the state where it runs. -/
def countersSafeOps : StoreState → List Op → Bool
  | _, [] => true
  | s, op :: rest => opCountersSafe s op && countersSafeOps (applyOp s op) rest

/-- A sample IPv4 peer used in the concrete theorems below. -/
def peerW : Peer := ⟨List.replicate 20 1, [10, 0, 0, 1], 6881⟩

/-- A second sample IPv4 peer. -/
def peerW2 : Peer := ⟨List.replicate 20 2, [10, 0, 0, 2], 6882⟩

/-! ## Middleware pipeline (`middleware`, part_002)

A post-hook's `HandleAnnounce(ctx, req, resp)` call mutates the shared
request/response/store world and returns an error; the world is modelled
by an opaque state type `α` threaded through the hooks, the Go `error` by
`Option ε`. -/

/-- Model of `Logic.AfterAnnounce`: run the post-hooks in registration order; when
a hook returns an error, log it and `return` — the remaining hooks are
not run. -/
def afterAnnounce {α ε : Type} : List (α → α × Option ε) → α → α
  | [], s => s
  | h :: rest, s =>
    match h s with
    | (s', none) => afterAnnounce rest s'
    | (s', some _) => s'

/-- Model of `Logic.AfterScrape`: same early-return loop as `Logic.AfterAnnounce`,
over the same post-hook list. -/
def afterScrape {α ε : Type} : List (α → α × Option ε) → α → α
  | [], s => s
  | h :: rest, s =>
    match h s with
    | (s', none) => afterScrape rest s'
    | (s', some _) => s'

/-! ## Swarm-interaction hook (`middleware`, part_003) -/

/-- Modelled from the spec: the announce event values of the `bittorrent`
package (not under src/): `none=0, completed=1, started=2, stopped=3`.
Only equality against `Completed` and `Stopped` is used. -/
inductive Event where
  | none | completed | started | stopped
deriving DecidableEq, Repr

/-- Model of `bittorrent.AnnounceRequest`, restricted to the fields the verified
code reads.  Modelled from the spec: the `bittorrent` package is not under
src/; `peersList` holds the caller's announce-candidate peer
representations, in the order returned by `req.Peers()`. -/
structure AnnounceReq where
  infoHash : InfoHash
  peersList : List Peer
  left : ℕ
  event : Event
  numWant : ℕ

/-- The `Stopped` branch of `swarmInteractionHook.HandleAnnounce`: delete
the peer from the seeder set, then from the leecher set, treating
`storage.ErrResourceDoesNotExist` as success in each step. -/
def stoppedStoreFn (s : StoreState) (ih : InfoHash) (p : Peer) :
    StoreState × Option StoreErr :=
  let r1 := deleteSeeder s ih p
  if r1.2 ≠ Option.none ∧ r1.2 ≠ some .notFound then r1
  else
    let r2 := deleteLeecher r1.1 ih p
    if r2.2 ≠ Option.none ∧ r2.2 ≠ some .notFound then r2
    else (r2.1, Option.none)

/-- The `storeFn` selection switch of
`swarmInteractionHook.HandleAnnounce`: `Stopped` → delete from both sets,
`Completed` → `GraduateLeecher`, `Left == 0` → `PutSeeder`, otherwise
`PutLeecher`.  The pure store operations never fail in the model. -/
def swarmStoreFn (req : AnnounceReq) :
    StoreState → InfoHash → Peer → StoreState × Option StoreErr :=
  if req.event = .stopped then stoppedStoreFn
  else if req.event = .completed then
    fun s ih p => (graduateLeecher s ih p, Option.none)
  else if req.left = 0 then fun s ih p => (putSeeder s ih p, Option.none)
  else fun s ih p => (putLeecher s ih p, Option.none)

/-- The peer loop of `swarmInteractionHook.HandleAnnounce`: apply
`storeFn` to each announce candidate; when the call succeeded and the
infohash is a 32-byte v2 hash, also apply it to the 20-byte v1
truncation; stop at the first error. -/
def swarmLoop (fn : StoreState → InfoHash → Peer → StoreState × Option StoreErr)
    (ih : InfoHash) : List Peer → StoreState → StoreState × Option StoreErr
  | [], s => (s, Option.none)
  | p :: rest, s =>
    let r1 := fn s ih p
    let r2 := if r1.2 = Option.none ∧ ih.length = infoHashV2Len then
        fn r1.1 (truncateV1 ih) p
      else r1
    if r2.2 = Option.none then swarmLoop fn ih rest r2.1 else r2

/-- Model of `swarmInteractionHook.HandleAnnounce`: a no-op when
`SkipSwarmInteractionKey` is set in the context (`skip`), otherwise the
event dispatch and peer loop above.  Context threading is dropped (the
hook returns its input context unchanged). -/
def swarmInteractionHandleAnnounce (skip : Bool) (req : AnnounceReq)
    (s : StoreState) : StoreState × Option StoreErr :=
  if skip then (s, Option.none)
  else swarmLoop (swarmStoreFn req) req.infoHash req.peersList s

/-- Spec-side description: remove the peer from the seeder set and then
from the leecher set, ignoring NotFound outcomes. -/
def deleteBothTolerant (s : StoreState) (ih : InfoHash) (p : Peer) : StoreState :=
  (deleteLeecher (deleteSeeder s ih p).1 ih p).1

/-- Spec-side description: apply a mutation to the infohash and, when it
is a 32-byte v2 hash, also to its 20-byte v1 truncation. -/
def applyMirrored (f : StoreState → InfoHash → Peer → StoreState)
    (s : StoreState) (ih : InfoHash) (p : Peer) : StoreState :=
  if ih.length = infoHashV2Len then f (f s ih p) (truncateV1 ih) p
  else f s ih p

/-! ## Response hook (`middleware`, part_003) and redis `GetPeers`
(part_005) -/

/-- Model of `bittorrent.AnnounceResponse`, restricted to the fields
`responseHook.appendPeers` reads and writes.  `Complete`/`Incomplete` are
uint32 in Go; the wrap at 2^32 is not modelled (no claim exercises it).
`interval` is the `time.Duration` in nanoseconds. -/
structure AnnounceResp where
  interval : ℕ
  minInterval : ℕ
  compact : Bool
  complete : ℕ
  incomplete : ℕ
  ipv4Peers : List Peer
  ipv6Peers : List Peer
deriving DecidableEq, Repr

/-- Model of `req.GetFirst().Is6()`.  Modelled from the spec: `GetFirst` (in the
`bittorrent` package, not under src/) yields the first announce-candidate
address; the primary family is IPv6 when the caller's IP is v6. -/
def reqGetFirstIsV6 (req : AnnounceReq) : Bool :=
  match req.peersList.head? with
  | some p => p.is6
  | Option.none => false

/-- The fetch loop of `responseHook.appendPeers`: for each (infohash,
family) argument, stop when `maxPeers` is exhausted, call
`store.AnnouncePeers`, abort on an error other than
`storage.ErrResourceDoesNotExist`, and accumulate the returned peers while
decrementing `maxPeers`. -/
def fetchLoop (fetch : InfoHash → Bool → ℤ → Bool → List Peer × Option StoreErr)
    (seeding : Bool) : List (InfoHash × Bool) → List Peer → ℤ →
      Except StoreErr (List Peer × ℤ)
  | [], peers, maxPeers => .ok (peers, maxPeers)
  | a :: rest, peers, maxPeers =>
    if maxPeers ≤ 0 then .ok (peers, maxPeers)
    else
      let r := fetch a.1 seeding maxPeers a.2
      match r.2 with
      | some .unavailable => .error .unavailable
      | _ => fetchLoop fetch seeding rest (peers ++ r.1) (maxPeers - r.1.length)

/-- The dedup/split loop at the end of `responseHook.appendPeers`: walk
the gathered peers with a `uniquePeers` map (here the `seen` list),
appending unseen IPv6 peers to the v6 result and unseen IPv4 peers to the
v4 result; peers of neither family are only logged — neither kept nor
marked seen. -/
def dedupSplitGo : List Peer → List Peer → List Peer → List Peer →
    List Peer × List Peer
  | [], _, v4, v6 => (v4, v6)
  | p :: rest, seen, v4, v6 =>
    if p ∈ seen then dedupSplitGo rest seen v4 v6
    else if p.is6 then dedupSplitGo rest (p :: seen) v4 (v6 ++ [p])
    else if p.is4 then dedupSplitGo rest (p :: seen) (v4 ++ [p]) v6
    else dedupSplitGo rest seen v4 v6

/-- Dedup and family-split a peer list, starting from empty results. -/
def dedupSplit (peers : List Peer) : List Peer × List Peer :=
  dedupSplitGo peers [] [] []

/-- Model of `responseHook.appendPeers(ctx, req, resp)`.  `fetch` is
`h.store.AnnouncePeers` (dependency-injected as in the Go interface).
The steps mirror the source: seed the peer list from the response's
pre-seeded peers in primary-family-first order, truncate to `numwant`,
run the fetch loop over up to four (infohash, family) pairs (v1
truncation included for v2 hashes), fall back to the caller's own peer
representations with a counter bump when nothing was gathered, and
finally dedup/split into `resp.IPv4Peers`/`resp.IPv6Peers`.  The early
`return err` of the Go code is the `Except` error. -/
def appendPeers (fetch : InfoHash → Bool → ℤ → Bool → List Peer × Option StoreErr)
    (req : AnnounceReq) (resp : AnnounceResp) : Except StoreErr AnnounceResp :=
  let seeding := req.left == 0
  let maxPeers0 : ℤ := req.numWant
  let v6First := reqGetFirstIsV6 req
  let args := [(req.infoHash, v6First), (req.infoHash, !v6First)] ++
    (if req.infoHash.length = infoHashV2Len then
      [(truncateV1 req.infoHash, v6First), (truncateV1 req.infoHash, !v6First)]
     else [])
  let peers0 := if v6First then resp.ipv6Peers ++ resp.ipv4Peers
                else resp.ipv4Peers ++ resp.ipv6Peers
  let pm : List Peer × ℤ :=
    if (peers0.length : ℤ) > maxPeers0 then (peers0.take maxPeers0.toNat, 0)
    else (peers0, maxPeers0 - peers0.length)
  (fetchLoop fetch seeding args pm.1 pm.2).map (fun pr =>
    let peers1 := pr.1
    let withSelf : List Peer × AnnounceResp :=
      if peers1 = [] then
        (req.peersList,
         if seeding then { resp with complete := resp.complete + 1 }
         else { resp with incomplete := resp.incomplete + 1 })
      else (peers1, resp)
    let split := dedupSplit withSelf.1
    { withSelf.2 with ipv4Peers := split.1, ipv6Peers := split.2 })

/-- The key loop of `Connection.GetPeers`: for each candidate redis key,
call `membersFn` with the remaining count, accumulate the decoded peers
and stop on an error or once the count is exhausted. -/
def getPeersLoop (membersFn : RKey → ℤ → List Peer × Option StoreErr) :
    List RKey → ℤ → List Peer → List Peer × Option StoreErr
  | [], _, out => (out, Option.none)
  | k :: rest, maxCount, out =>
    let r := membersFn k maxCount
    let maxCount2 := maxCount - r.1.length
    let out2 := out ++ r.1
    if r.2 ≠ Option.none ∨ maxCount2 ≤ 0 then (out2, r.2)
    else getPeersLoop membersFn rest maxCount2 out2

/-- Model of `Connection.GetPeers(ih, forSeeder, maxCount, isV6, membersFn)`: a
seeder asks for leechers only; anyone else gets seeders first, then
leechers.  An empty successful result becomes
`storage.ErrResourceDoesNotExist`; an error with a partial result is
downgraded to success.  `membersFn` abstracts the redis command
(`HRandField` for `AnnouncePeers`). -/
def getPeers (membersFn : RKey → ℤ → List Peer × Option StoreErr)
    (ih : InfoHash) (forSeeder : Bool) (maxCount : ℤ) (isV6 : Bool) :
    List Peer × Option StoreErr :=
  let keys := if forSeeder then [infoHashKey ih false isV6]
              else [infoHashKey ih true isV6, infoHashKey ih false isV6]
  let r := getPeersLoop membersFn keys maxCount []
  if r.2 = Option.none then
    (if r.1 = [] then (r.1, some .notFound) else (r.1, Option.none))
  else if r.1.length > 0 then (r.1, Option.none)
  else r

/-! ## UDP frontend (`frontend/udp`, frontend.go and part_006) -/

/-- Big-endian 4-byte encoding of a 32-bit value (`binary.Write` of a
uint32). -/
def be32 (n : ℕ) : List ℕ :=
  [n / 2^24 % 256, n / 2^16 % 256, n / 2^8 % 256, n % 256]

/-- Big-endian 2-byte encoding of a 16-bit value. -/
def be16 (n : ℕ) : List ℕ := [n / 2^8 % 256, n % 256]

/-- Model of `binary.BigEndian.Uint32` over a 4-byte slice. -/
def beUint32 (bs : List ℕ) : ℕ :=
  match bs with
  | [b0, b1, b2, b3] => ((b0 * 256 + b1) * 256 + b2) * 256 + b3
  | _ => 0

/-- Modelled from the spec: the BEP 15 action id for connect (0); the
constants live in a udp-package file not under src/. -/
def connectActionID : ℕ := 0

/-- Modelled from the spec: the v4 announce action id (1). -/
def announceActionID : ℕ := 1

/-- Modelled from the spec: the scrape action id (2). -/
def scrapeActionID : ℕ := 2

/-- Modelled from the spec: the error action id (3). -/
def errorActionID : ℕ := 3

/-- Modelled from the spec: the v6-announce dialect action id (4). -/
def announceV6ActionID : ℕ := 4

/-- Modelled from the spec: `initialConnectionID`, the 8-byte connect
magic 0x0000041727101980. -/
def initialConnectionID : List ℕ := [0, 0, 4, 23, 39, 16, 25, 128]

/-- A tracker error: its message bytes, and whether it is a
`bittorrent.ClientError` (client errors are echoed verbatim, others get
the "internal error occurred: " prefix in `writeErrorResponse`). -/
structure TrackerErr where
  msg : List ℕ
  isClientError : Bool
deriving DecidableEq, Repr

/-- Modelled from the spec: `errBadConnectionID`, the ClientError with
message "bad connection id" (ASCII bytes; its declaration is in a
udp-package file not under src/). -/
def errBadConnectionID : TrackerErr :=
  ⟨[98, 97, 100, 32, 99, 111, 110, 110, 101, 99, 116, 105, 111, 110,
    32, 105, 100], true⟩

/-- Modelled from the spec: `errUnknownAction` ("unknown action"), a
ClientError. -/
def errUnknownAction : TrackerErr :=
  ⟨[117, 110, 107, 110, 111, 119, 110, 32, 97, 99, 116, 105, 111, 110], true⟩

/-- The ASCII bytes of "internal error occurred: ". -/
def internalErrorHeader : List ℕ :=
  [105, 110, 116, 101, 114, 110, 97, 108, 32, 101, 114, 114, 111, 114, 32,
   111, 99, 99, 117, 114, 114, 101, 100, 58, 32]

/-- Model of `writeErrorResponse`: error action header, transaction id, the
"internal error occurred: " prefix unless the error is a ClientError, the
message, and a terminating NUL. -/
def writeErrorResponse (txID : List ℕ) (e : TrackerErr) : List ℕ :=
  be32 errorActionID ++ txID ++
  (if e.isClientError then [] else internalErrorHeader) ++ e.msg ++ [0]

/-- Model of `writeConnectionID`: connect action header, transaction id, and the
freshly generated 8-byte connection id. -/
def writeConnectionID (txID connID : List ℕ) : List ℕ :=
  be32 connectActionID ++ txID ++ connID

/-- Model of `writeAnnounceResponse`: action 4 when `v6Action` is set, else
action 1; then the transaction id, the interval in whole seconds,
leechers (`Incomplete`), seeders (`Complete`), and the address ‖ port
pairs of `resp.IPv6Peers` when `v6Peers` is set, `resp.IPv4Peers`
otherwise. -/
def writeAnnounceResponse (txID : List ℕ) (resp : AnnounceResp)
    (v6Action v6Peers : Bool) : List ℕ :=
  (if v6Action then be32 announceV6ActionID else be32 announceActionID) ++
  txID ++ be32 (resp.interval / 1000000000 % 2^32) ++
  be32 (resp.incomplete % 2^32) ++ be32 (resp.complete % 2^32) ++
  (if v6Peers then resp.ipv6Peers else resp.ipv4Peers).flatMap
    (fun p => p.addr ++ be16 (p.port % 2^16))

/-- Model of `bittorrent.ScrapeRequest`, reduced to its infohash list. -/
structure ScrapeReq where
  infoHashes : List InfoHash

/-- Model of `bittorrent.ScrapeResponse`: per-file (complete, snatches,
incomplete) triples. -/
structure ScrapeResp where
  files : List (ℕ × ℕ × ℕ)

/-- Model of `writeScrapeResponse`: scrape action header, transaction id, then
complete ‖ snatches ‖ incomplete per scraped file. -/
def writeScrapeResponse (txID : List ℕ) (resp : ScrapeResp) : List ℕ :=
  be32 scrapeActionID ++ txID ++
  resp.files.flatMap (fun f =>
    be32 (f.1 % 2^32) ++ be32 (f.2.1 % 2^32) ++ be32 (f.2.2 % 2^32))

/-- The collaborators of `udpFE.handleRequest`: the connection-id
generator/validator checked out of the pool (`gen.Validate` with the
source IP and current time folded in; `gen.Generate`'s fresh token), the
BEP 15 parsers, the middleware `Logic` handlers, and the store mutations
the asynchronous post-hook chains would perform for a response. -/
structure HandlerDeps where
  validate : List ℕ → Bool
  generated : List ℕ
  parseAnnounce : List ℕ → Bool → Except TrackerErr AnnounceReq
  handleAnnounce : AnnounceReq → Except TrackerErr AnnounceResp
  parseScrape : List ℕ → Except TrackerErr ScrapeReq
  handleScrape : ScrapeReq → Except TrackerErr ScrapeResp
  afterAnnounceOps : AnnounceReq → AnnounceResp → List Op
  afterScrapeOps : ScrapeReq → ScrapeResp → List Op

/-- Model of `udpFE.handleRequest`, returning the datagrams written back to the
client and the peer-store operations performed for the packet.  Packets
shorter than 16 bytes are silently dropped.  A non-connect action whose
connection id fails validation gets the "bad connection id" error frame
and nothing else.  Otherwise the action switch dispatches connect
(requiring the initial magic), announce (actions 1 and 4), scrape, or the
unknown-action error.  Context cancellation is not modelled. -/
def handleRequest (deps : HandlerDeps) (packet : List ℕ) (ipIsV6 : Bool) :
    List (List ℕ) × List Op :=
  if packet.length < 16 then ([], [])
  else
    let connID := packet.take 8
    let actionID := beUint32 ((packet.drop 8).take 4)
    let txID := (packet.drop 12).take 4
    if actionID ≠ connectActionID ∧ deps.validate connID = false then
      ([writeErrorResponse txID errBadConnectionID], [])
    else if actionID = connectActionID then
      (if connID = initialConnectionID then
        ([writeConnectionID txID deps.generated], [])
      else ([], []))
    else if actionID = announceActionID ∨ actionID = announceV6ActionID then
      match deps.parseAnnounce packet (actionID == announceV6ActionID) with
      | .error e => ([writeErrorResponse txID e], [])
      | .ok req =>
        match deps.handleAnnounce req with
        | .error e => ([writeErrorResponse txID e], [])
        | .ok resp =>
          ([writeAnnounceResponse txID resp (actionID == announceV6ActionID) ipIsV6],
           deps.afterAnnounceOps req resp)
    else if actionID = scrapeActionID then
      match deps.parseScrape packet with
      | .error e => ([writeErrorResponse txID e], [])
      | .ok req =>
        match deps.handleScrape req with
        | .error e => ([writeErrorResponse txID e], [])
        | .ok resp =>
          ([writeScrapeResponse txID resp], deps.afterScrapeOps req resp)
    else ([writeErrorResponse txID errUnknownAction], [])

/-- A sample announce request used in the closed examples below. -/
def reqStub : AnnounceReq := ⟨[0], [peerW], 0, .none, 50⟩

/-- A sample IPv6 peer (16-byte address). -/
def peerW6 : Peer := ⟨List.replicate 20 3, List.replicate 16 1, 6883⟩

/-- A sample announce response holding one peer of each family. -/
def respStub : AnnounceResp := ⟨1800000000000, 900, false, 1, 0, [peerW], [peerW6]⟩

/-- Dependencies whose connection-id validation accepts, with parser and
logic returning the stub request and response. -/
def depsAccept : HandlerDeps :=
  ⟨fun _ => true, List.replicate 8 9, fun _ _ => .ok reqStub,
   fun _ => .ok respStub, fun _ => .error errUnknownAction,
   fun _ => .error errUnknownAction, fun _ _ => [], fun _ _ => []⟩

/-- Dependencies whose connection-id validation rejects. -/
def depsDeny : HandlerDeps :=
  ⟨fun _ => false, List.replicate 8 9, fun _ _ => .ok reqStub,
   fun _ => .ok respStub, fun _ => .error errUnknownAction,
   fun _ => .error errUnknownAction, fun _ _ => [], fun _ _ => []⟩

/-- A 16-byte packet with a zero connection id, action 1 (announce), and
transaction id 7. -/
def packetAnnounce : List ℕ :=
  [0, 0, 0, 0, 0, 0, 0, 0, 0, 0, 0, 1, 0, 0, 0, 7]

/-! ## UDP `Config.Validate` clock-skew normalisation (frontend.go)

Go int64 arithmetic is modelled over ℤ with explicit wrap-around at
2^64; `time.Duration` values are in nanoseconds. -/

/-- Model of `maxAllowedClockSkew` (30 seconds) in nanoseconds. -/
def maxAllowedClockSkewNs : ℤ := 30 * 1000000000

/-- Model of `defaultMaxClockSkew` (10 seconds) in nanoseconds. -/
def defaultMaxClockSkewNs : ℤ := 10 * 1000000000

/-- The two's-complement bit pattern of an int64 value (assumed in
[-2^63, 2^63)) as a natural number. -/
def i64bits (x : ℤ) : ℕ := (x % (2:ℤ)^64).toNat

/-- Reinterpret a 64-bit pattern as a signed int64. -/
def i64ofBits (n : ℕ) : ℤ := if n < 2^63 then (n : ℤ) else (n : ℤ) - 2^64

/-- Go's arithmetic right shift by 63 on an int64 (floor division by
2^63): 0 for nonnegative values, -1 for negative ones. -/
def i64sar63 (x : ℤ) : ℤ := if x < 0 then -1 else 0

/-- int64 bitwise XOR, via the two's-complement bit patterns. -/
def i64xor (a b : ℤ) : ℤ := i64ofBits ((i64bits a) ^^^ (i64bits b))

/-- int64 bitwise AND. -/
def i64and (a b : ℤ) : ℤ := i64ofBits ((i64bits a) &&& (i64bits b))

/-- int64 addition with wrap-around. -/
def i64add (a b : ℤ) : ℤ := i64ofBits (((a + b) % (2:ℤ)^64).toNat)

/-- The `MaxClockSkew` handling in the udp `Config.Validate`: the
branch-free absolute value `sb := x >> 63; (x ^ sb) + (sb & 1)` in int64
arithmetic, then the fallback to the 10s default when the result is 0 or
exceeds the allowed 30s. -/
def validateMaxClockSkew (x : ℤ) : ℤ :=
  let sb := i64sar63 x
  let a := i64add (i64xor x sb) (i64and sb 1)
  if a = 0 ∨ maxAllowedClockSkewNs < a then defaultMaxClockSkewNs else a

theorem countersAgree_applyOp (s : StoreState) (op : Op)
    (hs : countersAgree s) (h : opCountersSafe s op = true) :
    countersAgree (applyOp s op) := by
  obtain ⟨hcs, hcl⟩ := hs
  cases op with
  | putSeeder ih p =>
    simp only [opCountersSafe, Bool.not_eq_true', decide_eq_false_iff_not] at h
    simp [applyOp, putSeeder, putPeer, countersAgree,
      Finset.card_insert_of_not_mem h, hcs, hcl]
  | putLeecher ih p =>
    simp only [opCountersSafe, Bool.not_eq_true', decide_eq_false_iff_not] at h
    simp [applyOp, putLeecher, putPeer, countersAgree,
      Finset.card_insert_of_not_mem h, hcs, hcl]
  | deleteSeeder ih p =>
    by_cases hm : (ih, p) ∈ s.seeders
    · have hpos : 1 ≤ s.seeders.card := Finset.card_pos.mpr ⟨_, hm⟩
      simp [applyOp, deleteSeeder, delPeer, hm, countersAgree, hcs, hcl,
        Finset.card_erase_of_mem hm]
      omega
    · simp [applyOp, deleteSeeder, delPeer, hm, countersAgree, hcs, hcl]
  | deleteLeecher ih p =>
    by_cases hm : (ih, p) ∈ s.leechers
    · have hpos : 1 ≤ s.leechers.card := Finset.card_pos.mpr ⟨_, hm⟩
      simp [applyOp, deleteLeecher, delPeer, hm, countersAgree, hcs, hcl,
        Finset.card_erase_of_mem hm]
      omega
    · simp [applyOp, deleteLeecher, delPeer, hm, countersAgree, hcs, hcl]
  | graduate ih p =>
    simp only [opCountersSafe, Bool.and_eq_true, Bool.not_eq_true',
      decide_eq_false_iff_not] at h
    simp [applyOp, graduateLeecher, countersAgree,
      Finset.card_insert_of_not_mem h.1, Finset.erase_eq_of_not_mem h.2,
      hcs, hcl]

theorem countersAgree_applyOps (s : StoreState) (ops : List Op)
    (hs : countersAgree s) (h : countersSafeOps s ops = true) :
    countersAgree (applyOps s ops) := by
  induction ops generalizing s with
  | nil => exact hs
  | cons op rest ihyp =>
    rw [countersSafeOps, Bool.and_eq_true] at h
    have : applyOps s (op :: rest) = applyOps (applyOp s op) rest := rfl
    rw [this]
    exact ihyp (applyOp s op) (countersAgree_applyOp s op hs h.1) h.2

/-- C1 counterexample: starting from the empty store, `put_leecher` then
`put_seeder` of the same peer on the same infohash leaves the peer a
member of **both** the seeder and the leecher set, refuting both the
at-most-one-set invariant and the stated removal from the opposite set. -/
theorem putSeeder_keeps_leecher_entry :
    ([0], peerW) ∈ (applyOps initialState
        [.putLeecher [0] peerW, .putSeeder [0] peerW]).seeders ∧
    ([0], peerW) ∈ (applyOps initialState
        [.putLeecher [0] peerW, .putSeeder [0] peerW]).leechers := by
  decide

/-- C1 (amended): `put_seeder` (resp. `put_leecher`) leaves the leecher
(resp. seeder) set untouched, so a peer can be in both sets of the same
infohash; only `graduate_leecher` removes the peer from the leecher set
while making it a seeder. -/
theorem puts_leave_opposite_set (s : StoreState) (ih : InfoHash) (p : Peer) :
    (putSeeder s ih p).leechers = s.leechers ∧
    (putLeecher s ih p).seeders = s.seeders ∧
    (ih, p) ∉ (graduateLeecher s ih p).leechers ∧
    (ih, p) ∈ (graduateLeecher s ih p).seeders := by
  exact ⟨by simp [putSeeder, putPeer], by simp [putLeecher, putPeer],
    by simp [graduateLeecher], by simp [graduateLeecher]⟩

/-- C2 counterexample: `graduate_leecher` on a peer that is **not** in the
leecher set still increments the `CHI_D` downloads (snatches) field of the
infohash, refuting "the snatches counter is unchanged" for that case. -/
theorem graduate_non_leecher_bumps_snatches :
    ([0], peerW) ∉ initialState.leechers ∧
    (applyOps initialState [.graduate [0] peerW]).downloads [0] =
      initialState.downloads [0] + 1 := by
  decide

/-- C2 (amended): `graduate_leecher` increments the swarm's snatches
(downloads) counter unconditionally.  The peer's leecher entry is removed
while the leecher counter is left unchanged (the pipelined, guarded
`Decr` never executes), and the seeder set and counter change exactly as
in `put_seeder`; in particular, when the peer was not a leecher the whole
operation behaves as `put_seeder` — except that the snatches counter is
still incremented. -/
theorem graduate_snatches_unconditional (s : StoreState) (ih : InfoHash)
    (p : Peer) :
    (graduateLeecher s ih p).downloads ih = s.downloads ih + 1 ∧
    (ih, p) ∉ (graduateLeecher s ih p).leechers ∧
    (graduateLeecher s ih p).countLeechers = s.countLeechers ∧
    (graduateLeecher s ih p).seeders = (putSeeder s ih p).seeders ∧
    (graduateLeecher s ih p).countSeeders = (putSeeder s ih p).countSeeders ∧
    ((ih, p) ∉ s.leechers → (graduateLeecher s ih p).leechers = s.leechers) := by
  exact ⟨by simp [graduateLeecher], by simp [graduateLeecher],
    by simp [graduateLeecher], by simp [graduateLeecher, putSeeder, putPeer],
    by simp [graduateLeecher, putSeeder, putPeer],
    fun hm => by simp [graduateLeecher, Finset.erase_eq_of_not_mem hm]⟩

theorem graduate_snatches_unconditional_witness :
    (graduateLeecher initialState [0] peerW).downloads [0] =
      initialState.downloads [0] + 1 ∧
    (graduateLeecher initialState [0] peerW).countLeechers =
      initialState.countLeechers ∧
    (graduateLeecher initialState [0] peerW).leechers = initialState.leechers := by
  have h := graduate_snatches_unconditional initialState [0] peerW
  exact ⟨h.1, h.2.2.1, h.2.2.2.2.2 (by decide)⟩

/-- C3 counterexample: two `put_seeder` calls for the same (infohash, peer)
leave one seeder entry but a global seeder counter of 2 — the counter
`INCR` is unconditional while the `HSET` only overwrites the field.
Moreover `put_leecher` followed by `graduate_leecher` of the same peer
leaves zero leecher entries but a leecher counter of 1 — the graduation
removes the entry but its guarded `Decr` never executes. -/
theorem repeated_put_inflates_counter :
    (applyOps initialState [.putSeeder [0] peerW, .putSeeder [0] peerW]).countSeeders = 2 ∧
    (applyOps initialState [.putSeeder [0] peerW, .putSeeder [0] peerW]).seeders.card = 1 ∧
    (applyOps initialState [.putLeecher [0] peerW, .graduate [0] peerW]).countLeechers = 1 ∧
    (applyOps initialState [.putLeecher [0] peerW, .graduate [0] peerW]).leechers.card = 0 := by
  decide

/-- C3 (amended): after any counter-safe sequence of operations from the
empty store — one in which no put or graduation targets a peer already
present in its destination set, and no graduation targets a current
leecher — the global seeder and leecher counters equal the total number
of seeder resp. leecher entries over all swarms.  (A redundant put
increments the counter without growing the set, and graduating an actual
leecher removes the entry without decrementing the leecher counter, so
the equality fails for arbitrary sequences.) -/
theorem counters_match_after_quiescence (ops : List Op)
    (h : countersSafeOps initialState ops = true) :
    countersAgree (applyOps initialState ops) :=
  countersAgree_applyOps initialState ops (by decide) h

theorem counters_match_after_quiescence_witness :
    countersSafeOps initialState
      [.putSeeder [0] peerW, .putLeecher [0] peerW2, .deleteLeecher [0] peerW2,
       .graduate [0] peerW2] = true ∧
    countersAgree (applyOps initialState
      [.putSeeder [0] peerW, .putLeecher [0] peerW2, .deleteLeecher [0] peerW2,
       .graduate [0] peerW2]) :=
  ⟨by decide, counters_match_after_quiescence _ (by decide)⟩

/-- C4 counterexample: a chain of two post-hooks in which the first
returns an error and the second increments a counter.  If the second hook
still ran, the final state would be 1; `AfterAnnounce` leaves it at 0, so
the error aborts the chain instead of being swallowed. -/
theorem afterAnnounce_aborts_on_error :
    afterAnnounce
      [fun n => (n, some 0), fun n => (n + 1, (none : Option ℕ))] (0 : ℕ) = 0 ∧
    ((fun (n : ℕ) => (n + 1, (none : Option ℕ))) 0).1 = 1 ∧ (0 : ℕ) ≠ 1 := by
  decide

/-- C4 (amended): when a post-hook returns an error, `AfterAnnounce` and
`AfterScrape` stop: the erroring hook's state update is kept, the error is
only logged (never surfaced), and the subsequent post-hooks do not run;
when a hook succeeds the chain continues with the returned state. -/
theorem postHook_error_aborts_chain {α ε : Type} (h : α → α × Option ε)
    (rest : List (α → α × Option ε)) (s : α) :
    ((h s).2 = none →
      afterAnnounce (h :: rest) s = afterAnnounce rest (h s).1 ∧
      afterScrape (h :: rest) s = afterScrape rest (h s).1) ∧
    (∀ e, (h s).2 = some e →
      afterAnnounce (h :: rest) s = (h s).1 ∧
      afterScrape (h :: rest) s = (h s).1) := by
  constructor
  · intro he
    rcases hhs : h s with ⟨s', e⟩
    rw [hhs] at he
    simp only at he
    subst he
    constructor
    · rw [afterAnnounce, hhs]
    · rw [afterScrape, hhs]
  · intro e he
    rcases hhs : h s with ⟨s', e'⟩
    rw [hhs] at he
    simp only at he
    subst he
    constructor
    · rw [afterAnnounce, hhs]
    · rw [afterScrape, hhs]

theorem postHook_error_aborts_chain_witness :
    afterAnnounce
      [fun n => (n + 5, some 0), fun n => (n + 1, (none : Option ℕ))] (0 : ℕ) = 5 ∧
    afterScrape
      [fun n => (n + 5, (none : Option ℕ)), fun n => (n + 1, (none : Option ℕ))]
      (0 : ℕ) = 6 := by
  have h1 := (postHook_error_aborts_chain (fun n : ℕ => (n + 5, some 0))
    [fun n => (n + 1, (none : Option ℕ))] 0).2 0 (by decide)
  have h2 := (postHook_error_aborts_chain (fun n : ℕ => (n + 5, (none : Option ℕ)))
    [fun n => (n + 1, (none : Option ℕ))] 0).1 (by decide)
  exact ⟨h1.1, by rw [h2.2]; decide⟩

theorem delPeer_err (s : StoreState) (b : Bool) (ih : InfoHash) (p : Peer) :
    (delPeer s b ih p).2 = Option.none ∨
      (delPeer s b ih p).2 = some .notFound := by
  cases b
  · by_cases hm : (ih, p) ∈ s.leechers <;> simp [delPeer, hm]
  · by_cases hm : (ih, p) ∈ s.seeders <;> simp [delPeer, hm]

theorem stoppedStoreFn_eq (s : StoreState) (ih : InfoHash) (p : Peer) :
    stoppedStoreFn s ih p = (deleteBothTolerant s ih p, Option.none) := by
  have h1 := delPeer_err s true ih p
  have h2 := delPeer_err (delPeer s true ih p).1 false ih p
  unfold stoppedStoreFn deleteBothTolerant deleteSeeder deleteLeecher
  rcases h1 with h1 | h1 <;> rcases h2 with h2 | h2 <;> simp [h1, h2]

theorem swarmLoop_single
    (fn : StoreState → InfoHash → Peer → StoreState × Option StoreErr)
    (g : StoreState → InfoHash → Peer → StoreState)
    (hfn : ∀ s ih p, fn s ih p = (g s ih p, Option.none))
    (ih : InfoHash) (p : Peer) (s : StoreState) :
    swarmLoop fn ih [p] s = (applyMirrored g s ih p, Option.none) := by
  by_cases hv : ih.length = infoHashV2Len <;>
    simp [swarmLoop, applyMirrored, hfn, hv]

/-- C5: with swarm interaction not skipped and a single announce
candidate, the hook dispatches on the event — `Stopped` deletes the peer
from both sets with NotFound tolerated, `Completed` graduates the
leecher, otherwise `left == 0` puts a seeder and `left > 0` a leecher —
and for a 32-byte v2 infohash the same operation is also applied to its
20-byte v1 truncation. -/
theorem swarm_hook_dispatch (req : AnnounceReq) (p : Peer) (s : StoreState)
    (hp : req.peersList = [p]) :
    (req.event = .stopped →
      swarmInteractionHandleAnnounce false req s =
        (applyMirrored deleteBothTolerant s req.infoHash p, Option.none)) ∧
    (req.event = .completed →
      swarmInteractionHandleAnnounce false req s =
        (applyMirrored graduateLeecher s req.infoHash p, Option.none)) ∧
    (req.event ≠ .stopped → req.event ≠ .completed → req.left = 0 →
      swarmInteractionHandleAnnounce false req s =
        (applyMirrored putSeeder s req.infoHash p, Option.none)) ∧
    (req.event ≠ .stopped → req.event ≠ .completed → req.left ≠ 0 →
      swarmInteractionHandleAnnounce false req s =
        (applyMirrored putLeecher s req.infoHash p, Option.none)) := by
  refine ⟨fun he => ?_, fun he => ?_, fun h1 h2 h3 => ?_, fun h1 h2 h3 => ?_⟩
  all_goals
    simp only [swarmInteractionHandleAnnounce, Bool.false_eq_true, if_false, hp]
  · rw [show swarmStoreFn req = stoppedStoreFn by simp [swarmStoreFn, he]]
    exact swarmLoop_single _ _ stoppedStoreFn_eq _ _ _
  · rw [show swarmStoreFn req =
        (fun s ih p => (graduateLeecher s ih p, Option.none)) by
      simp [swarmStoreFn, he]]
    exact swarmLoop_single _ _ (fun _ _ _ => rfl) _ _ _
  · rw [show swarmStoreFn req =
        (fun s ih p => (putSeeder s ih p, Option.none)) by
      simp [swarmStoreFn, h1, h2, h3]]
    exact swarmLoop_single _ _ (fun _ _ _ => rfl) _ _ _
  · rw [show swarmStoreFn req =
        (fun s ih p => (putLeecher s ih p, Option.none)) by
      simp [swarmStoreFn, h1, h2, h3]]
    exact swarmLoop_single _ _ (fun _ _ _ => rfl) _ _ _

theorem swarm_hook_dispatch_witness :
    swarmInteractionHandleAnnounce false
        ⟨[0], [peerW], 5, .completed, 50⟩ initialState =
      (applyMirrored graduateLeecher initialState [0] peerW, Option.none) :=
  (swarm_hook_dispatch ⟨[0], [peerW], 5, .completed, 50⟩ peerW
    initialState rfl).2.1 rfl

theorem except_map_ok {α β γ : Type} (f : β → γ) (e : Except α β) (c : γ)
    (h : e.map f = .ok c) : ∃ b, e = .ok b ∧ f b = c := by
  cases e with
  | error a => simp [Except.map] at h
  | ok b => exact ⟨b, rfl, by simpa [Except.map] using h⟩

theorem fetchLoop_empty
    (fetch : InfoHash → Bool → ℤ → Bool → List Peer × Option StoreErr)
    (seeding : Bool)
    (hf : ∀ ih fs n v6, (fetch ih fs n v6).1 = [] ∧
      ((fetch ih fs n v6).2 = Option.none ∨ (fetch ih fs n v6).2 = some .notFound))
    (args : List (InfoHash × Bool)) (m : ℤ) :
    fetchLoop fetch seeding args [] m = .ok ([], m) := by
  induction args generalizing m with
  | nil => rfl
  | cons a rest ihyp =>
    rw [fetchLoop]
    by_cases hm : m ≤ 0
    · simp [hm]
    · obtain ⟨h1, h2⟩ := hf a.1 seeding m a.2
      rcases h2 with h2 | h2 <;> simp [hm, h1, h2, ihyp]

theorem dedupSplitGo_spec (l : List Peer) (seen v4 v6 : List Peer)
    (h4 : ∀ q ∈ v4, q.is4 = true) (h6 : ∀ q ∈ v6, q.is6 = true)
    (hnd : (v4 ++ v6).Nodup)
    (hseen : ∀ q, q ∈ v4 ∨ q ∈ v6 → q ∈ seen) :
    (∀ q ∈ (dedupSplitGo l seen v4 v6).1, q.is4 = true) ∧
    (∀ q ∈ (dedupSplitGo l seen v4 v6).2, q.is6 = true) ∧
    ((dedupSplitGo l seen v4 v6).1 ++ (dedupSplitGo l seen v4 v6).2).Nodup := by
  induction l generalizing seen v4 v6 with
  | nil => exact ⟨h4, h6, hnd⟩
  | cons p rest ihyp =>
    rw [dedupSplitGo]
    by_cases hs : p ∈ seen
    · simp only [hs, if_true]
      exact ihyp seen v4 v6 h4 h6 hnd hseen
    · have hpnot : p ∉ v4 ++ v6 := by
        intro hmem
        rcases List.mem_append.mp hmem with h | h
        · exact hs (hseen p (Or.inl h))
        · exact hs (hseen p (Or.inr h))
      by_cases h6p : p.is6 = true
      · simp only [hs, if_false, h6p, if_true]
        refine ihyp (p :: seen) v4 (v6 ++ [p]) h4 ?_ ?_ ?_
        · intro q hq
          rcases List.mem_append.mp hq with h | h
          · exact h6 q h
          · simp at h; subst h; exact h6p
        · rw [← List.append_assoc]
          refine List.Nodup.append ?_ ?_ ?_
          · exact hnd
          · exact List.nodup_singleton p
          · intro q hq hq2
            simp at hq2; subst hq2; exact hpnot hq
        · intro q hq
          rcases hq with h | h
          · exact List.mem_cons_of_mem _ (hseen q (Or.inl h))
          · rcases List.mem_append.mp h with h | h
            · exact List.mem_cons_of_mem _ (hseen q (Or.inr h))
            · simp at h; subst h; exact List.mem_cons_self _ _
      · by_cases h4p : p.is4 = true
        · simp only [hs, if_false, h6p, h4p, if_true]
          refine ihyp (p :: seen) (v4 ++ [p]) v6 ?_ h6 ?_ ?_
          · intro q hq
            rcases List.mem_append.mp hq with h | h
            · exact h4 q h
            · simp at h; subst h; exact h4p
          · rw [List.append_assoc]
            have hmid : ([p] ++ v6).Nodup := by
              refine List.Nodup.append (List.nodup_singleton p) ?_ ?_
              · exact (List.nodup_append.mp hnd).2.1
              · intro q hq hq2
                simp at hq; subst hq
                exact hpnot (List.mem_append.mpr (Or.inr hq2))
            refine List.Nodup.append ?_ hmid ?_
            · exact (List.nodup_append.mp hnd).1
            · intro q hq hq2
              rcases List.mem_append.mp hq2 with h | h
              · simp at h; subst h
                exact hpnot (List.mem_append.mpr (Or.inl hq))
              · exact (List.nodup_append.mp hnd).2.2 hq h
          · intro q hq
            rcases hq with h | h
            · rcases List.mem_append.mp h with h | h
              · exact List.mem_cons_of_mem _ (hseen q (Or.inl h))
              · simp at h; subst h; exact List.mem_cons_self _ _
            · exact List.mem_cons_of_mem _ (hseen q (Or.inr h))
        · simp only [hs, if_false, h6p, h4p]
          exact ihyp seen v4 v6 h4 h6 hnd hseen

theorem dedupSplit_spec (l : List Peer) :
    (∀ q ∈ (dedupSplit l).1, q.is4 = true) ∧
    (∀ q ∈ (dedupSplit l).2, q.is6 = true) ∧
    ((dedupSplit l).1 ++ (dedupSplit l).2).Nodup :=
  dedupSplitGo_spec l [] [] [] (by simp) (by simp) (by simp) (by simp)

theorem getPeersLoop_length (membersFn : RKey → ℤ → List Peer × Option StoreErr)
    (hb : ∀ k c, 0 ≤ c → (((membersFn k c).1.length : ℤ)) ≤ c)
    (keys : List RKey) (m : ℤ) (out : List Peer) (hm : 0 ≤ m) :
    (((getPeersLoop membersFn keys m out).1.length : ℤ)) ≤ out.length + m := by
  induction keys generalizing m out with
  | nil => simp [getPeersLoop]; omega
  | cons k rest ihyp =>
    rw [getPeersLoop]
    have hk := hb k m hm
    by_cases hbreak : (membersFn k m).2 ≠ Option.none ∨
        m - (membersFn k m).1.length ≤ 0
    · simp only [hbreak, if_true]
      simp
      omega
    · simp only [hbreak, if_false]
      push_neg at hbreak
      have := ihyp (m - (membersFn k m).1.length) (out ++ (membersFn k m).1)
        (by omega)
      simp at this ⊢
      omega

theorem getPeers_fst (membersFn : RKey → ℤ → List Peer × Option StoreErr)
    (ih : InfoHash) (forSeeder : Bool) (maxCount : ℤ) (isV6 : Bool) :
    (getPeers membersFn ih forSeeder maxCount isV6).1 =
      (getPeersLoop membersFn
        (if forSeeder then [infoHashKey ih false isV6]
         else [infoHashKey ih true isV6, infoHashKey ih false isV6])
        maxCount []).1 := by
  unfold getPeers
  dsimp only
  repeat' split
  all_goals rfl

theorem peer_is4_not_is6 {p : Peer} (h : p.is4 = true) : p.is6 = false := by
  simp [Peer.is4] at h
  simp [Peer.is6, h]

theorem peer_is6_not_is4 {p : Peer} (h : p.is6 = true) : p.is4 = false := by
  simp [Peer.is6] at h
  simp [Peer.is4, h]

/-- C6: when the store yields no peers for any (infohash, family) pair
(`NotFound` tolerated) and no peers were pre-seeded in the response, the
response hook returns exactly the caller's own peer representation in the
family-matching list, incrementing `Complete` by 1 when the caller is
seeding (`left == 0`) and `Incomplete` by 1 otherwise. -/
theorem response_hook_self_peer
    (fetch : InfoHash → Bool → ℤ → Bool → List Peer × Option StoreErr)
    (req : AnnounceReq) (resp : AnnounceResp) (p : Peer)
    (hf : ∀ ih fs n v6, (fetch ih fs n v6).1 = [] ∧
      ((fetch ih fs n v6).2 = Option.none ∨ (fetch ih fs n v6).2 = some .notFound))
    (h4 : resp.ipv4Peers = []) (h6 : resp.ipv6Peers = [])
    (hp : req.peersList = [p]) (hfam : p.is4 = true ∨ p.is6 = true) :
    appendPeers fetch req resp = .ok
      { resp with
        complete := resp.complete + (if req.left = 0 then 1 else 0),
        incomplete := resp.incomplete + (if req.left = 0 then 0 else 1),
        ipv4Peers := if p.is4 then [p] else [],
        ipv6Peers := if p.is6 then [p] else [] } := by
  unfold appendPeers
  rw [h4, h6]
  have hnum : ¬ ((0:ℤ) > (req.numWant : ℤ)) := by omega
  simp only [List.append_nil, List.nil_append, ite_self, List.length_nil,
    Nat.cast_zero, hnum, if_false, gt_iff_lt, not_lt]
  rw [fetchLoop_empty fetch _ hf]
  by_cases hl : req.left = 0
  · rcases hfam with hfam | hfam
    · have h6p := peer_is4_not_is6 hfam
      simp [hp, hl, Except.map, dedupSplit, dedupSplitGo, hfam, h6p]
    · have h4p := peer_is6_not_is4 hfam
      simp [hp, hl, Except.map, dedupSplit, dedupSplitGo, hfam, h4p]
  · rcases hfam with hfam | hfam
    · have h6p := peer_is4_not_is6 hfam
      simp [hp, hl, Except.map, dedupSplit, dedupSplitGo, hfam, h6p]
    · have h4p := peer_is6_not_is4 hfam
      simp [hp, hl, Except.map, dedupSplit, dedupSplitGo, hfam, h4p]

theorem response_hook_self_peer_witness :
    appendPeers (fun _ _ _ _ => ([], Option.none))
        ⟨[0], [peerW], 0, .none, 50⟩ ⟨1800, 900, false, 0, 0, [], []⟩ =
      .ok ⟨1800, 900, false, 1, 0, [peerW], []⟩ := by
  have h := response_hook_self_peer (fun _ _ _ _ => ([], Option.none))
      ⟨[0], [peerW], 0, .none, 50⟩ ⟨1800, 900, false, 0, 0, [], []⟩ peerW
      (fun _ _ _ _ => ⟨rfl, Or.inl rfl⟩) rfl rfl rfl (Or.inl (by decide))
  simpa using h

/-- C7: every successful `appendPeers` result has only IPv4 addresses in
`resp.IPv4Peers`, only IPv6 addresses in `resp.IPv6Peers`, and no peer
appears twice across the two lists (peers of neither family are dropped);
and `GetPeers` returns at most `maxCount` peers whenever the underlying
redis command honours its count argument (`HRandField` with a nonnegative
count returns at most that many fields). -/
theorem response_peers_dedup_and_bounded :
    (∀ (fetch : InfoHash → Bool → ℤ → Bool → List Peer × Option StoreErr)
       (req : AnnounceReq) (resp resp2 : AnnounceResp),
       appendPeers fetch req resp = .ok resp2 →
       (∀ q ∈ resp2.ipv4Peers, q.is4 = true) ∧
       (∀ q ∈ resp2.ipv6Peers, q.is6 = true) ∧
       (resp2.ipv4Peers ++ resp2.ipv6Peers).Nodup) ∧
    (∀ (membersFn : RKey → ℤ → List Peer × Option StoreErr),
       (∀ k c, 0 ≤ c → ((membersFn k c).1.length : ℤ) ≤ c) →
       ∀ (ih : InfoHash) (forSeeder : Bool) (n : ℤ) (isV6 : Bool), 0 ≤ n →
       (((getPeers membersFn ih forSeeder n isV6).1.length : ℤ)) ≤ n) := by
  constructor
  · intro fetch req resp resp2 hok
    unfold appendPeers at hok
    obtain ⟨pr, hres, hf2⟩ := except_map_ok _ _ _ hok
    subst hf2
    dsimp only
    exact dedupSplit_spec _
  · intro membersFn hb ih forSeeder n isV6 hn
    have hl := getPeersLoop_length membersFn hb
      (if forSeeder then [infoHashKey ih false isV6]
       else [infoHashKey ih true isV6, infoHashKey ih false isV6]) n [] hn
    simp only [List.length_nil, Nat.cast_zero, zero_add] at hl
    rw [getPeers_fst]
    exact hl

theorem response_peers_dedup_and_bounded_witness :
    (∀ q ∈ ([peerW] : List Peer), q.is4 = true) ∧
    (([peerW] : List Peer) ++ ([] : List Peer)).Nodup ∧
    ((getPeers (fun _ _ => ([], Option.none)) [0] false 5 false).1.length : ℤ) ≤ 5 := by
  have hA := response_peers_dedup_and_bounded.1 (fun _ _ _ _ => ([], Option.none))
      ⟨[0], [peerW], 0, .none, 50⟩ ⟨1800, 900, false, 0, 0, [], []⟩
      ⟨1800, 900, false, 1, 0, [peerW], []⟩ (by rfl)
  have hB := response_peers_dedup_and_bounded.2 (fun _ _ => ([], Option.none))
      (by intro k c hc; simpa using hc) [0] false 5 false (by norm_num)
  exact ⟨hA.1, hA.2.2, hB⟩

/-- C8: a ≥ 16-byte packet whose action is not connect and whose
connection id fails validation produces exactly one write — the
"bad connection id" ClientError frame for its transaction id — and no
store operations, so any peer-store state is left unchanged. -/
theorem bad_connection_id_drops_request (deps : HandlerDeps)
    (packet : List ℕ) (ipIsV6 : Bool)
    (hlen : ¬ packet.length < 16)
    (hact : beUint32 ((packet.drop 8).take 4) ≠ connectActionID)
    (hval : deps.validate (packet.take 8) = false) :
    handleRequest deps packet ipIsV6 =
      ([be32 errorActionID ++ (packet.drop 12).take 4 ++
        errBadConnectionID.msg ++ [0]], []) ∧
    (∀ s : StoreState, applyOps s (handleRequest deps packet ipIsV6).2 = s) := by
  have h1 : handleRequest deps packet ipIsV6 =
      ([writeErrorResponse ((packet.drop 12).take 4) errBadConnectionID], []) := by
    unfold handleRequest
    simp [hlen, hact, hval]
  refine ⟨?_, ?_⟩
  · rw [h1]
    simp [writeErrorResponse, errBadConnectionID]
  · rw [h1]
    intro s
    rfl

/-- C9: on a validated announce (action 1 or 4) whose parse and logic
succeed, the frontend writes exactly one datagram — built by
`writeAnnounceResponse` with `v6Action = (action == 4)` and
`v6Peers = r.IP.Is6()` — whose action word is 4 exactly for the
v6-announce action and 1 otherwise, and whose peer section serialises
`resp.IPv6Peers` when the client's source address is IPv6 and
`resp.IPv4Peers` otherwise. -/
theorem announce_response_family_and_action (deps : HandlerDeps)
    (packet : List ℕ) (ipIsV6 : Bool) (req : AnnounceReq) (resp : AnnounceResp)
    (hlen : ¬ packet.length < 16)
    (hact : beUint32 ((packet.drop 8).take 4) = announceActionID ∨
            beUint32 ((packet.drop 8).take 4) = announceV6ActionID)
    (hval : deps.validate (packet.take 8) = true)
    (hparse : deps.parseAnnounce packet
        (beUint32 ((packet.drop 8).take 4) == announceV6ActionID) = .ok req)
    (hlogic : deps.handleAnnounce req = .ok resp) :
    handleRequest deps packet ipIsV6 =
      ([writeAnnounceResponse ((packet.drop 12).take 4) resp
          (beUint32 ((packet.drop 8).take 4) == announceV6ActionID) ipIsV6],
       deps.afterAnnounceOps req resp) ∧
    writeAnnounceResponse ((packet.drop 12).take 4) resp
        (beUint32 ((packet.drop 8).take 4) == announceV6ActionID) ipIsV6 =
      be32 (if beUint32 ((packet.drop 8).take 4) = announceV6ActionID then
              announceV6ActionID else announceActionID) ++
      (packet.drop 12).take 4 ++ be32 (resp.interval / 1000000000 % 2^32) ++
      be32 (resp.incomplete % 2^32) ++ be32 (resp.complete % 2^32) ++
      (if ipIsV6 then resp.ipv6Peers else resp.ipv4Peers).flatMap
        (fun p => p.addr ++ be16 (p.port % 2^16)) := by
  constructor
  · unfold handleRequest
    rcases hact with hact | hact <;>
      rw [hact] at hparse ⊢ <;>
      simp only [announceActionID, announceV6ActionID] at hparse <;>
      simp at hparse <;>
      simp [hlen, hact, hval, hparse, hlogic, announceActionID,
        announceV6ActionID, connectActionID]
  · rcases hact with hact | hact <;>
      simp [writeAnnounceResponse, hact, announceActionID, announceV6ActionID]

theorem bad_connection_id_drops_request_witness :
    handleRequest depsDeny packetAnnounce false =
      ([be32 errorActionID ++ (packetAnnounce.drop 12).take 4 ++
        errBadConnectionID.msg ++ [0]], []) ∧
    applyOps initialState (handleRequest depsDeny packetAnnounce false).2 =
      initialState := by
  have h := bad_connection_id_drops_request depsDeny packetAnnounce false
    (by decide) (by decide) rfl
  exact ⟨h.1, h.2 initialState⟩

theorem announce_response_family_and_action_witness :
    handleRequest depsAccept packetAnnounce false =
      ([writeAnnounceResponse ((packetAnnounce.drop 12).take 4) respStub
          (beUint32 ((packetAnnounce.drop 8).take 4) == announceV6ActionID) false],
       depsAccept.afterAnnounceOps reqStub respStub) ∧
    writeAnnounceResponse ((packetAnnounce.drop 12).take 4) respStub
        (beUint32 ((packetAnnounce.drop 8).take 4) == announceV6ActionID) false =
      be32 (if beUint32 ((packetAnnounce.drop 8).take 4) = announceV6ActionID then
              announceV6ActionID else announceActionID) ++
      ((packetAnnounce.drop 12).take 4) ++
      be32 (respStub.interval / 1000000000 % 2^32) ++
      be32 (respStub.incomplete % 2^32) ++ be32 (respStub.complete % 2^32) ++
      ((if false then respStub.ipv6Peers else respStub.ipv4Peers).flatMap
        (fun p => p.addr ++ be16 (p.port % 2^16))) :=
  announce_response_family_and_action depsAccept packetAnnounce false
    reqStub respStub (by decide) (Or.inl (by decide)) rfl rfl rfl

/-- C10: at the int64 minimum the branch-free absolute value wraps back
to the minimum itself, which is neither 0 nor greater than 30s, so
`Config.Validate` keeps it — the returned `MaxClockSkew` is negative
instead of the positive default the claim (and the function's own
"defaults replace anything invalid" doc) requires.  Nearby inputs behave
as claimed: a negative in-range duration is replaced by its absolute
value, and 0 or an over-large value falls back to the 10s default. -/
theorem validate_max_clock_skew_min_int64_bug :
    validateMaxClockSkew (-(2^63)) = -(2^63) ∧
    validateMaxClockSkew (-(2^63)) < 0 ∧
    validateMaxClockSkew (-(5 * 1000000000)) = 5 * 1000000000 ∧
    validateMaxClockSkew 0 = defaultMaxClockSkewNs ∧
    validateMaxClockSkew (31 * 1000000000) = defaultMaxClockSkewNs ∧
    0 < defaultMaxClockSkewNs := by
  decide

end Mochi
